import Mathlib

/-!
Shallow embedding of the multi-chain deposit monitor (Silver7Surfer/monitor).

Modules embedded (JS source → Lean):
* `AddressService`  — src address directory (fetchAddresses / getUserIdForAddress / getAddresses)
* `Trc20`           — trc20Service.js checkAddress / checkAllAddresses (both repo variants share
                      this polling code verbatim)
* `Bep20`           — bep20Service.js polling checkAddress / checkAllAddresses (identical in both
                      repo variants)
* `Bep20Ws`         — bep20Service.js WebSocket push handler processRealTimeTransaction and the
                      reconnect timer logic
* `BtcWs`           — the WebSocket variant of btcService.js (src/unnamed/part_000): polling
                      checkAddress (with fiat price multiplication), push handler
                      processRealTimeTransaction, checkAllAddresses
* `BtcPoll`         — the poll-only variant at src/services/btcService.js
* `DepositService`  — depositService.js processDeposits / checkDeposits / stopMonitoring

Conventions of the embedding:
* JS numbers that carry monetary values are modelled as `ℚ` (exact rationals); integer counters
  and raw on-chain base-unit values as `ℕ`.
* A `Set` of processed transaction hashes is modelled as a `List String` with `::` insertion and
  `∈` membership (insertion order is irrelevant to every claim).
* Fallible HTTP fetches are modelled as `Option` results: `none` covers a thrown network error as
  well as a response that the code rejects before the processing loop; in either case the JS
  function returns `[]` from its `catch`/early-return path.
* ISO-8601 rendering of chain timestamps (`new Date(x).toISOString()`) is modelled by `epochIso`
  (for numeric epochs) or by carrying the provider's time string through unchanged; only the
  provenance (chain clock vs receipt clock) matters to the claims, never the string format.
* The directory lookup `addressService.getUserIdForAddress` is passed to each watcher as a
  function parameter `lookup : Lookup`, reflecting the module import.
-/

/-- Canonical deposit record, the only entity crossing the core/delivery boundary.
Field `dtype` embeds the JS field `type`, `fromAddr`/`toAddr` embed `from`/`to`. -/
structure Deposit where
  userId : String
  dtype : String
  asset : String
  network : String
  amount : ℚ
  txHash : String
  fromAddr : String
  toAddr : String
  timestamp : String
  confirmations : Nat
  deriving Repr, DecidableEq

/-- Directory lookup: `lookup address network` embeds `addressService.getUserIdForAddress`. -/
def Lookup : Type := String → String → Option String

/-- JS falsy-default `v || d` on an optional numeric field: `undefined`/`null` and `0` both fall
back to the default. -/
def jsOrNat (v : Option Nat) (d : Nat) : Nat :=
  match v with
  | none => d
  | some 0 => d
  | some (k + 1) => k + 1

/-- JS multiplication `a * p` where `p` may be `null` (a failed price lookup): `null` coerces to
`0`, so the product is `0`. -/
def jsMulNull (a : ℚ) (p : Option ℚ) : ℚ :=
  match p with
  | none => 0
  | some q => a * q

/-- Modelled rendering of `new Date(ms).toISOString()` for a numeric epoch; the exact string
format is irrelevant to every claim, only which clock produced it. -/
def epochIso (ms : Nat) : String :=
  toString ms

/-- Number of deposits in `l` carrying transaction hash `h`. -/
def countHash (h : String) (l : List Deposit) : Nat :=
  l.countP (fun d => d.txHash == h)

namespace AddressService

/-- Per-user wallet record: the `detailed` shape returned by the identity authority. -/
structure WalletAddresses where
  bep20 : String
  trc20 : String
  btc : String
  deriving Repr, DecidableEq

structure WalletRecord where
  userId : String
  addresses : WalletAddresses
  deriving Repr, DecidableEq

/-- Grouped per-chain address lists (the `grouped` shape of the authority's response). -/
structure GroupedAddresses where
  bep20 : List String
  trc20 : List String
  btc : List String
  deriving Repr, DecidableEq

/-- In-memory snapshot `state` of addressService.js: the grouped lists and the detailed records. -/
structure AddrState where
  addresses : GroupedAddresses
  addressDetails : List WalletRecord
  deriving Repr, DecidableEq

/-- Embeds `getAddresses: () => state.addresses`. -/
def getAddresses (st : AddrState) : GroupedAddresses :=
  st.addresses

/-- Outcome of the authority HTTP GET: a thrown network error, or a JSON payload carrying the
`success` flag plus both shapes. -/
inductive FetchResponse where
  | networkError
  | payload (success : Bool) (grouped : GroupedAddresses) (detailed : List WalletRecord)
  deriving Repr, DecidableEq

/-- Success flag of a response (`false` for a network error). -/
def FetchResponse.successFlag : FetchResponse → Bool
  | .networkError => false
  | .payload success _ _ => success

/-- Embeds `fetchAddresses`: on a network error the `catch` returns `false` with `state`
untouched; on `!response.data.success` it returns `false` before any assignment; on success it
replaces `state.addresses` and `state.addressDetails` and returns `true`. -/
def fetchAddresses (st : AddrState) (r : FetchResponse) : Bool × AddrState :=
  match r with
  | .networkError => (false, st)
  | .payload success grouped detailed =>
    if success then
      (true, { addresses := grouped, addressDetails := detailed })
    else
      (false, st)

/-- Embeds `getUserIdForAddress(address, network)`: case-insensitive find over
`state.addressDetails`, returning `wallet.userId` or `null`. -/
def getUserIdForAddress (st : AddrState) (address network : String) : Option String :=
  let normalizedAddress := address.toLower
  let wallet := st.addressDetails.find? (fun w =>
    if network = "bep20" then w.addresses.bep20.toLower == normalizedAddress
    else if network = "trc20" then w.addresses.trc20.toLower == normalizedAddress
    else if network = "btc" then w.addresses.btc.toLower == normalizedAddress
    else false)
  wallet.map (fun w => w.userId)

end AddressService

namespace Trc20

/-- USDT contract address on TRON, `USDT_CONTRACT` in trc20Service.js. -/
def USDT_CONTRACT : String := "TR7NHqjeKQxGTCi8q8ZY4pL8otSzgjLj6t"

structure TokenInfo where
  address : String
  symbol : String
  decimals : Option Nat
  deriving Repr, DecidableEq

/-- A TronGrid TRC20 transfer record (the fields the code reads). -/
structure TrcTx where
  transaction_id : String
  token_info : TokenInfo
  toAddr : String
  fromAddr : String
  value : Nat
  block_timestamp : Nat
  confirmations : Option Nat
  deriving Repr, DecidableEq

/-- Embeds the `for (const tx of transactions)` loop of trc20Service.js `checkAddress`:
guard `tx.token_info.address === USDT_CONTRACT && tx.to === address && !processedTxs.has(id)`,
then owner lookup; on a hit the deposit is pushed and the hash inserted, otherwise the hash is
left untouched. `seen` threads the module-level `processedTxs` set. -/
def checkAddressLoop (lookup : Lookup) (address : String) :
    List String → List TrcTx → List String × List Deposit
  | seen, [] => (seen, [])
  | seen, tx :: rest =>
    if tx.token_info.address = USDT_CONTRACT ∧ tx.toAddr = address ∧
        tx.transaction_id ∉ seen then
      match lookup address "trc20" with
      | some userId =>
        let decimals := jsOrNat tx.token_info.decimals 6
        let amount : ℚ := (tx.value : ℚ) / 10 ^ decimals
        let d : Deposit :=
          { userId := userId, dtype := "deposit", asset := "usdt", network := "trc20",
            amount := amount, txHash := tx.transaction_id, fromAddr := tx.fromAddr,
            toAddr := tx.toAddr, timestamp := epochIso tx.block_timestamp,
            confirmations := jsOrNat tx.confirmations 1 }
        let r := checkAddressLoop lookup address (tx.transaction_id :: seen) rest
        (r.1, d :: r.2)
      | none => checkAddressLoop lookup address seen rest
    else
      checkAddressLoop lookup address seen rest

/-- Embeds trc20Service.js `checkAddress`: `resp = none` covers a thrown request error and a
`!response.data || !response.data.success` reply, both returning `[]` with the set untouched. -/
def checkAddress (lookup : Lookup) (address : String) (resp : Option (List TrcTx))
    (seen : List String) : List String × List Deposit :=
  match resp with
  | none => (seen, [])
  | some transactions => checkAddressLoop lookup address seen transactions

/-- Embeds trc20Service.js `checkAllAddresses`: sequential per-address checks, results
concatenated in address order. -/
def checkAllAddresses (lookup : Lookup) (resp : String → Option (List TrcTx)) :
    List String → List String → List String × List Deposit
  | addresses, seen =>
    match addresses with
    | [] => (seen, [])
    | address :: rest =>
      let r := checkAddress lookup address (resp address) seen
      let r2 := checkAllAddresses lookup resp rest r.1
      (r2.1, r.2 ++ r2.2)

end Trc20

namespace Bep20

/-- USDT contract address on BSC, `USDT_CONTRACT` in bep20Service.js. -/
def USDT_CONTRACT : String := "0x55d398326f99059ff775485246999027b3197955"

/-- A BscScan `tokentx` record (the fields the code reads). -/
structure BepTx where
  hash : String
  contractAddress : String
  toAddr : String
  fromAddr : String
  value : Nat
  timeStamp : Nat
  confirmations : Nat
  deriving Repr, DecidableEq

/-- Embeds the transaction loop of bep20Service.js `checkAddress` (identical in both repo
variants): guard `tx.contractAddress.toLowerCase() === USDT_CONTRACT.toLowerCase() &&
tx.to.toLowerCase() === address.toLowerCase() && !processedTxs.has(tx.hash)`, then owner
lookup; on a hit the deposit (amount `tx.value / 1e18`) is pushed and the hash inserted. -/
def checkAddressLoop (lookup : Lookup) (address : String) :
    List String → List BepTx → List String × List Deposit
  | seen, [] => (seen, [])
  | seen, tx :: rest =>
    if tx.contractAddress.toLower = USDT_CONTRACT.toLower ∧
        tx.toAddr.toLower = address.toLower ∧ tx.hash ∉ seen then
      match lookup address "bep20" with
      | some userId =>
        let d : Deposit :=
          { userId := userId, dtype := "deposit", asset := "usdt", network := "bep20",
            amount := (tx.value : ℚ) / 1000000000000000000, txHash := tx.hash,
            fromAddr := tx.fromAddr, toAddr := tx.toAddr,
            timestamp := epochIso (tx.timeStamp * 1000),
            confirmations := tx.confirmations }
        let r := checkAddressLoop lookup address (tx.hash :: seen) rest
        (r.1, d :: r.2)
      | none => checkAddressLoop lookup address seen rest
    else
      checkAddressLoop lookup address seen rest

/-- Embeds bep20Service.js `checkAddress`: `resp = none` covers a thrown request error and a
`response.data.status !== '1'` reply, both returning `[]` with the set untouched. -/
def checkAddress (lookup : Lookup) (address : String) (resp : Option (List BepTx))
    (seen : List String) : List String × List Deposit :=
  match resp with
  | none => (seen, [])
  | some transactions => checkAddressLoop lookup address seen transactions

/-- Embeds bep20Service.js `checkAllAddresses`. -/
def checkAllAddresses (lookup : Lookup) (resp : String → Option (List BepTx)) :
    List String → List String → List String × List Deposit
  | addresses, seen =>
    match addresses with
    | [] => (seen, [])
    | address :: rest =>
      let r := checkAddress lookup address (resp address) seen
      let r2 := checkAllAddresses lookup resp rest r.1
      (r2.1, r.2 ++ r2.2)

end Bep20

namespace Bep20Ws

/-- Transaction object assembled from a WebSocket frame in bep20Service.js (`tx.contractAddress`
may be absent, hence the guard `tx.contractAddress && ...`). -/
structure BepRtTx where
  hash : String
  contractAddress : Option String
  toAddr : String
  fromAddr : String
  value : Nat
  deriving Repr, DecidableEq

/-- Embeds bep20Service.js `processRealTimeTransaction`: dedup check on entry; contract guard;
owner lookup on `tx.to`; on a hit, one deposit with `timestamp: new Date().toISOString()`
(the receipt clock `now`) and `confirmations: 1`, and the hash is inserted. -/
def processRealTimeTransaction (lookup : Lookup) (now : String) (seen : List String)
    (tx : BepRtTx) : List String × List Deposit :=
  if tx.hash ∈ seen then (seen, [])
  else
    match tx.contractAddress with
    | some c =>
      if c.toLower = Bep20.USDT_CONTRACT.toLower then
        match lookup tx.toAddr "bep20" with
        | some userId =>
          let amount : ℚ := (tx.value : ℚ) / 1000000000000000000
          let d : Deposit :=
            { userId := userId, dtype := "deposit", asset := "usdt", network := "bep20",
              amount := amount, txHash := tx.hash, fromAddr := tx.fromAddr,
              toAddr := tx.toAddr, timestamp := now, confirmations := 1 }
          (tx.hash :: seen, [d])
        | none => (seen, [])
      else (seen, [])
    | none => (seen, [])

end Bep20Ws

namespace BtcWs

/-- An output of a BlockCypher transaction (`output.addresses` may be null). -/
structure BtcOutput where
  addresses : Option (List String)
  value : Nat
  deriving Repr, DecidableEq

/-- A BlockCypher full-history transaction (the fields the code reads);
`inputAddr` embeds `tx.inputs[0]?.addresses?.[0]`, `received` the provider's time string. -/
structure BtcTx where
  hash : String
  outputs : List BtcOutput
  inputAddr : Option String
  received : String
  confirmations : Option Nat
  deriving Repr, DecidableEq

/-- Embeds the transaction loop of the WebSocket btcService variant's `checkAddress`
(src/unnamed/part_000): skip if seen; filter outputs paying `address`; compute
`amountBt = totalReceived / 1e8` and `amountBtc = amountBt * btcPrice` (a null price coerces to
0); owner lookup; on a hit the deposit is pushed with `amount: amountBtc` — the fiat product,
not the BTC quantity — and the hash inserted. -/
def checkAddressLoop (lookup : Lookup) (price : Option ℚ) (address : String) :
    List String → List BtcTx → List String × List Deposit
  | seen, [] => (seen, [])
  | seen, tx :: rest =>
    if tx.hash ∈ seen then
      checkAddressLoop lookup price address seen rest
    else
      let receivedOutputs := tx.outputs.filter (fun o =>
        match o.addresses with
        | some l => l.contains address
        | none => false)
      if receivedOutputs.isEmpty then
        checkAddressLoop lookup price address seen rest
      else
        let totalReceived := (receivedOutputs.map (fun o => o.value)).sum
        let amountBt : ℚ := (totalReceived : ℚ) / 100000000
        let amountBtc : ℚ := jsMulNull amountBt price
        match lookup address "btc" with
        | some userId =>
          let d : Deposit :=
            { userId := userId, dtype := "deposit", asset := "btc", network := "btc",
              amount := amountBtc, txHash := tx.hash,
              fromAddr := tx.inputAddr.getD "unknown", toAddr := address,
              timestamp := tx.received, confirmations := jsOrNat tx.confirmations 1 }
          let r := checkAddressLoop lookup price address (tx.hash :: seen) rest
          (r.1, d :: r.2)
        | none => checkAddressLoop lookup price address seen rest

/-- Embeds the WebSocket btcService variant's `checkAddress`; `resp = none` covers a thrown
request error and a `!response.data || !response.data.txs` reply; `price` is the already-awaited
`getBtcPrice()` result (`none` = lookup failed, the function returns `null`). -/
def checkAddress (lookup : Lookup) (price : Option ℚ) (address : String)
    (resp : Option (List BtcTx)) (seen : List String) : List String × List Deposit :=
  match resp with
  | none => (seen, [])
  | some transactions => checkAddressLoop lookup price address seen transactions

/-- Embeds the WebSocket btcService variant's `checkAllAddresses`. -/
def checkAllAddresses (lookup : Lookup) (price : Option ℚ)
    (resp : String → Option (List BtcTx)) :
    List String → List String → List String × List Deposit
  | addresses, seen =>
    match addresses with
    | [] => (seen, [])
    | address :: rest =>
      let r := checkAddress lookup price address (resp address) seen
      let r2 := checkAllAddresses lookup price resp rest r.1
      (r2.1, r.2 ++ r2.2)

/-- An output of a blockchain.info push-notification transaction. -/
structure BtcRtOutput where
  addr : Option String
  value : Nat
  deriving Repr, DecidableEq

/-- A blockchain.info push-notification transaction (the fields the code reads before failing). -/
structure BtcRtTx where
  hash : String
  out : Option (List BtcRtOutput)
  deriving Repr, DecidableEq

/-- Embeds the output loop of the BTC `processRealTimeTransaction`: for the first output whose
address is watched and owned, the next statement `const amountBtc = amountBt * btcPrice` reads
the identifier `btcPrice`, which has no binding in that function (it is a local of
`checkAddress`), so a ReferenceError is thrown — modelled as `Except.error ()`. The deposit
construction after that line is unreachable. Outputs that are unwatched or ownerless are
skipped exactly as in the source. -/
def rtOutputsLoop (lookup : Lookup) (watched : List String) :
    List BtcRtOutput → Except Unit (List Deposit)
  | [] => Except.ok []
  | o :: rest =>
    match o.addr with
    | some outputAddress =>
      if outputAddress ∈ watched then
        match lookup outputAddress "btc" with
        | some _ => Except.error ()
        | none => rtOutputsLoop lookup watched rest
      else rtOutputsLoop lookup watched rest
    | none => rtOutputsLoop lookup watched rest

/-- Embeds the BTC `processRealTimeTransaction` (src/unnamed/part_000): dedup check on entry;
`tx.out && Array.isArray(tx.out)` guard (`out = none` otherwise); the output loop; the thrown
ReferenceError is caught by the surrounding `try`/`catch`, which returns `[]`; the hash is added
only when `deposits.length > 0`. -/
def processRealTimeTransaction (lookup : Lookup) (watched : List String) (seen : List String)
    (tx : BtcRtTx) : List String × List Deposit :=
  if tx.hash ∈ seen then (seen, [])
  else
    match tx.out with
    | some outs =>
      match rtOutputsLoop lookup watched outs with
      | Except.error () => (seen, [])
      | Except.ok deposits =>
        if deposits.length > 0 then (tx.hash :: seen, deposits) else (seen, deposits)
    | none => (seen, [])

end BtcWs

namespace BtcPoll

/-- Embeds the transaction loop of the poll-only btcService variant's `checkAddress`
(src/services/btcService.js): identical to the WebSocket variant except that there is no price
lookup and the deposit's `amount` is `amountBtc = totalReceived / 100000000`, the BTC quantity. -/
def checkAddressLoop (lookup : Lookup) (address : String) :
    List String → List BtcWs.BtcTx → List String × List Deposit
  | seen, [] => (seen, [])
  | seen, tx :: rest =>
    if tx.hash ∈ seen then
      checkAddressLoop lookup address seen rest
    else
      let receivedOutputs := tx.outputs.filter (fun o =>
        match o.addresses with
        | some l => l.contains address
        | none => false)
      if receivedOutputs.isEmpty then
        checkAddressLoop lookup address seen rest
      else
        let totalReceived := (receivedOutputs.map (fun o => o.value)).sum
        let amountBtc : ℚ := (totalReceived : ℚ) / 100000000
        match lookup address "btc" with
        | some userId =>
          let d : Deposit :=
            { userId := userId, dtype := "deposit", asset := "btc", network := "btc",
              amount := amountBtc, txHash := tx.hash,
              fromAddr := tx.inputAddr.getD "unknown", toAddr := address,
              timestamp := tx.received, confirmations := jsOrNat tx.confirmations 1 }
          let r := checkAddressLoop lookup address (tx.hash :: seen) rest
          (r.1, d :: r.2)
        | none => checkAddressLoop lookup address seen rest

/-- Embeds the poll-only btcService variant's `checkAddress`. -/
def checkAddress (lookup : Lookup) (address : String) (resp : Option (List BtcWs.BtcTx))
    (seen : List String) : List String × List Deposit :=
  match resp with
  | none => (seen, [])
  | some transactions => checkAddressLoop lookup address seen transactions

end BtcPoll

namespace WsTimer

/-- Timer state of one watcher's WebSocket module: the pending `setTimeout` timers created by
this module (id, delay in ms), the module-level `wsReconnectTimeout` handle, and the next fresh
timer id. `WS_RECONNECT_DELAY = 5000` in both btcService (part_000) and bep20Service. -/
structure WsState where
  pending : List (Nat × Nat)
  wsReconnectTimeout : Option Nat
  nextId : Nat
  deriving Repr, DecidableEq

/-- Embeds `clearTimeout(id)`: the timer with that id is no longer pending. -/
def clearPending (st : WsState) (i : Nat) : WsState :=
  { st with pending := st.pending.filter (fun p => p.1 != i) }

/-- Embeds `reconnectWebSocket` (identical in btcService part_000 and bep20Service):
`if (wsReconnectTimeout) clearTimeout(wsReconnectTimeout); wsReconnectTimeout =
setTimeout(..., WS_RECONNECT_DELAY)`. -/
def reconnectWebSocket (st : WsState) : WsState :=
  let st1 :=
    match st.wsReconnectTimeout with
    | some i => clearPending st i
    | none => st
  { pending := st1.pending ++ [(st1.nextId, 5000)],
    wsReconnectTimeout := some st1.nextId,
    nextId := st1.nextId + 1 }

/-- Events a disconnect can fire on the channel; both handlers call `reconnectWebSocket`. -/
inductive WsEvent where
  | errorEv
  | closeEv
  deriving Repr, DecidableEq

/-- Embeds the `'error'` and `'close'` handlers registered in `startWebSocketMonitoring`. -/
def handleWsEvent (st : WsState) : WsEvent → WsState
  | .errorEv => reconnectWebSocket st
  | .closeEv => reconnectWebSocket st

/-- Runs a sequence of channel events against the timer state. -/
def runWsEvents : WsState → List WsEvent → WsState
  | st, [] => st
  | st, e :: rest => runWsEvents (handleWsEvent st e) rest

/-- Module state at process start: no pending timer, `wsReconnectTimeout = null`. -/
def initialWsState : WsState :=
  { pending := [], wsReconnectTimeout := none, nextId := 0 }

/-- Well-formedness the module maintains: every pending timer of this module is the tracked
reconnect timer with the fixed 5000 ms delay, and at most one is pending. -/
def WsInv (st : WsState) : Prop :=
  (∀ p ∈ st.pending, st.wsReconnectTimeout = some p.1 ∧ p.2 = 5000) ∧
    st.pending.length ≤ 1

instance (st : WsState) : Decidable (WsInv st) := by
  unfold WsInv; infer_instance

end WsTimer

namespace DepositService

/-- Timer/connection resources owned by the monitor process, as module-level variables:
the two depositService intervals, trc20Service's quick-poll interval, and each WebSocket
watcher's pending reconnect timer and open connection. `true` = set/open. -/
structure MonState where
  monitoringInterval : Bool
  addressRefreshInterval : Bool
  trc20QuickPollInterval : Bool
  btcWsReconnectPending : Bool
  btcWsOpen : Bool
  bep20WsReconnectPending : Bool
  bep20WsOpen : Bool
  deriving Repr, DecidableEq

/-- Embeds trc20Service.js `stop` (the quick-poll variant): clears `quickPollInterval`. -/
def trc20Stop (s : MonState) : MonState :=
  { s with trc20QuickPollInterval := false }

/-- The bep20Service default export is `{checkAllAddresses, checkAddress, getProcessedCount,
CONTRACT, init}` — it has no `stop` method, so `typeof bep20Service.stop === 'function'` is
false. -/
def bep20StopFn : Option (MonState → MonState) := none

/-- The trc20Service default export includes `stop`. -/
def trc20StopFn : Option (MonState → MonState) := some trc20Stop

/-- The btcService (part_000) default export is `{checkAllAddresses, checkAddress,
getProcessedCount, init}` — it has no `stop` method. -/
def btcStopFn : Option (MonState → MonState) := none

/-- Embeds `if (typeof service.stop === 'function') service.stop()`. -/
def callStopIfFn (f : Option (MonState → MonState)) (s : MonState) : MonState :=
  match f with
  | some g => g s
  | none => s

/-- Embeds depositService.js `stopMonitoring`: clears `monitoringInterval` and
`addressRefreshInterval`, then invokes each service's `stop` when it exists (bep20, trc20, btc,
in source order). -/
def stopMonitoring (s : MonState) : MonState :=
  let s1 := { s with monitoringInterval := false, addressRefreshInterval := false }
  callStopIfFn btcStopFn (callStopIfFn trc20StopFn (callStopIfFn bep20StopFn s1))

/-- Observable calls made during one `checkDeposits` cycle, in execution order: the three
watcher sweeps and any POST of a deposit batch to the delivery boundary. -/
inductive AggCall where
  | bep20Check
  | trc20Check
  | btcCheck
  | deliveryPost (batch : List Deposit)
  deriving Repr, DecidableEq

/-- Embeds depositService.js `processDeposits`: `if (deposits.length === 0) return;` then one
`axios.post` of the whole batch to the main server (whose success flag only affects logging). -/
def processDeposits (deposits : List Deposit) : List AggCall :=
  if deposits.length = 0 then [] else [AggCall.deliveryPost deposits]

/-- The per-cycle environment of a sweep: the directory lookup and grouped address snapshot,
each chain's provider response per address, and the awaited BTC price. -/
structure Providers where
  lookup : Lookup
  grouped : AddressService.GroupedAddresses
  bepResp : String → Option (List Bep20.BepTx)
  trcResp : String → Option (List Trc20.TrcTx)
  btcResp : String → Option (List BtcWs.BtcTx)
  btcPrice : Option ℚ

/-- The three watchers' module-level `processedTxs` sets. -/
structure DedupSets where
  bep20Seen : List String
  trc20Seen : List String
  btcSeen : List String
  deriving Repr, DecidableEq

/-- Embeds depositService.js `checkDeposits`: awaits `bep20Service.checkAllAddresses()`, then
`trc20Service.checkAllAddresses()`, then `btcService.checkAllAddresses()`; concatenates
`[...bep20Deposits, ...trc20Deposits, ...btcDeposits]`; and when `allDeposits.length > 0`
awaits `processDeposits(allDeposits)`. Returns the updated dedup sets, the combined deposits,
and the calls made, in execution order. -/
def checkDeposits (env : Providers) (st : DedupSets) :
    DedupSets × List Deposit × List AggCall :=
  let bep := Bep20.checkAllAddresses env.lookup env.bepResp env.grouped.bep20 st.bep20Seen
  let trc := Trc20.checkAllAddresses env.lookup env.trcResp env.grouped.trc20 st.trc20Seen
  let btc := BtcWs.checkAllAddresses env.lookup env.btcPrice env.btcResp env.grouped.btc
    st.btcSeen
  let allDeposits := bep.2 ++ trc.2 ++ btc.2
  let calls := [AggCall.bep20Check, AggCall.trc20Check, AggCall.btcCheck] ++
    (if allDeposits.length > 0 then processDeposits allDeposits else [])
  (⟨bep.1, trc.1, btc.1⟩, allDeposits, calls)

end DepositService

/-- One atomic detection step of the BTC watcher (part_000). Each constructor is a synchronous
block of JS between suspension points: a polling `checkAddress` invocation (the whole
transaction loop runs without an await) or one WebSocket message handled by
`processRealTimeTransaction`. The directory snapshot, watched list and price are those current
at that step. -/
inductive BtcOp where
  | poll (lookup : Lookup) (price : Option ℚ) (address : String)
      (resp : Option (List BtcWs.BtcTx))
  | push (lookup : Lookup) (watched : List String) (tx : BtcWs.BtcRtTx)

/-- Effect of a BTC watcher step on the watcher's `processedTxs` set. -/
def BtcOp.step (seen : List String) : BtcOp → List String × List Deposit
  | .poll lookup price address resp => BtcWs.checkAddress lookup price address resp seen
  | .push lookup watched tx => BtcWs.processRealTimeTransaction lookup watched seen tx

/-- One atomic detection step of the TRC20 watcher: both the scheduled sweep and the quick-poll
cadence invoke the same `checkAddress`. -/
inductive TrcOp where
  | poll (lookup : Lookup) (address : String) (resp : Option (List Trc20.TrcTx))

/-- Effect of a TRC20 watcher step on the watcher's `processedTxs` set. -/
def TrcOp.step (seen : List String) : TrcOp → List String × List Deposit
  | .poll lookup address resp => Trc20.checkAddress lookup address resp seen

/-- One atomic detection step of the BEP20 watcher: a polling `checkAddress` invocation or one
WebSocket event handled by `processRealTimeTransaction` (with the receipt time `now`). -/
inductive BepOp where
  | poll (lookup : Lookup) (address : String) (resp : Option (List Bep20.BepTx))
  | push (lookup : Lookup) (now : String) (tx : Bep20Ws.BepRtTx)

/-- Effect of a BEP20 watcher step on the watcher's `processedTxs` set. -/
def BepOp.step (seen : List String) : BepOp → List String × List Deposit
  | .poll lookup address resp => Bep20.checkAddress lookup address resp seen
  | .push lookup now tx => Bep20Ws.processRealTimeTransaction lookup now seen tx

/-- Runs a sequence of atomic watcher steps, threading the dedup set and concatenating the
emitted deposits in order. -/
def runOps (step : List String → α → List String × List Deposit) :
    List String → List α → List String × List Deposit
  | seen, [] => (seen, [])
  | seen, op :: rest =>
    let r := step seen op
    let r2 := runOps step r.1 rest
    (r2.1, r.2 ++ r2.2)

/-- Dedup discipline of a detection step starting from set `seen` and producing
`r = (newSeen, emitted)`: seen hashes survive, every emitted hash ends up in the set, a hash
already seen is never emitted, no hash is emitted twice, and a hash enters the set only when it
was already there or a deposit for it was emitted. -/
structure LoopSpec (seen : List String) (r : List String × List Deposit) : Prop where
  seen_sub : ∀ h, h ∈ seen → h ∈ r.1
  emitted_mem : ∀ d, d ∈ r.2 → d.txHash ∈ r.1
  seen_not_emitted : ∀ h, h ∈ seen → countHash h r.2 = 0
  at_most_once : ∀ h, countHash h r.2 ≤ 1
  insert_only_emit : ∀ h, h ∈ r.1 → h ∈ seen ∨ ∃ d, d ∈ r.2 ∧ d.txHash = h

theorem countHash_nil (h : String) : countHash h [] = 0 := rfl

theorem countHash_cons (h : String) (d : Deposit) (l : List Deposit) :
    countHash h (d :: l) = (if d.txHash = h then 1 else 0) + countHash h l := by
  simp only [countHash, List.countP_cons]
  by_cases hd : d.txHash = h <;> simp [hd, Nat.add_comm]

theorem countHash_append (h : String) (l1 l2 : List Deposit) :
    countHash h (l1 ++ l2) = countHash h l1 + countHash h l2 := by
  simp [countHash, List.countP_append]

theorem countHash_pos_iff (h : String) (l : List Deposit) :
    0 < countHash h l ↔ ∃ d, d ∈ l ∧ d.txHash = h := by
  simp [countHash, List.countP_pos_iff]

/-- A step that emits nothing and keeps the set satisfies the discipline. -/
theorem LoopSpec.base (seen : List String) : LoopSpec seen (seen, []) := by
  refine ⟨fun h hh => hh, ?_, ?_, ?_, ?_⟩
  · intro d hd; simp at hd
  · intro h _; rfl
  · intro h; simp [countHash_nil]
  · intro h hh; exact Or.inl hh

/-- Check-then-insert: if a fresh hash `k` is inserted and a single deposit carrying `k` is
emitted in front of a compliant continuation started from `k :: seen`, the whole step is
compliant from `seen`. -/
theorem LoopSpec.emit {seen : List String} {k : String} {d : Deposit}
    {r : List String × List Deposit} (hk : k ∉ seen) (hd : d.txHash = k)
    (h : LoopSpec (k :: seen) r) : LoopSpec seen (r.1, d :: r.2) := by
  refine ⟨?_, ?_, ?_, ?_, ?_⟩
  · intro x hx; exact h.seen_sub x (List.mem_cons_of_mem _ hx)
  · intro d2 hd2
    rcases List.mem_cons.mp hd2 with rfl | hmem
    · exact h.seen_sub d2.txHash (hd ▸ List.mem_cons_self _ _)
    · exact h.emitted_mem d2 hmem
  · intro x hx
    have hxk : d.txHash ≠ x := by
      rw [hd]; intro he; exact hk (he ▸ hx)
    rw [countHash_cons, if_neg hxk, zero_add]
    exact h.seen_not_emitted x (List.mem_cons_of_mem _ hx)
  · intro x
    rw [countHash_cons]
    by_cases hx : d.txHash = x
    · rw [if_pos hx]
      have : countHash x r.2 = 0 :=
        h.seen_not_emitted x (by rw [← hx, ← hd]; exact List.mem_cons_self _ _)
      omega
    · rw [if_neg hx, zero_add]; exact h.at_most_once x
  · intro x hx
    rcases h.insert_only_emit x hx with hmem | ⟨d2, hd2, he⟩
    · rcases List.mem_cons.mp hmem with rfl | hs
      · exact Or.inr ⟨d, List.mem_cons_self _ _, hd⟩
      · exact Or.inl hs
    · exact Or.inr ⟨d2, List.mem_cons_of_mem _ hd2, he⟩

/-- Sequencing two compliant steps is compliant. -/
theorem LoopSpec.seq {seen : List String} {r1 : List String × List Deposit}
    {r2 : List String × List Deposit} (h1 : LoopSpec seen r1) (h2 : LoopSpec r1.1 r2) :
    LoopSpec seen (r2.1, r1.2 ++ r2.2) := by
  refine ⟨?_, ?_, ?_, ?_, ?_⟩
  · intro x hx; exact h2.seen_sub x (h1.seen_sub x hx)
  · intro d hd
    rcases List.mem_append.mp hd with hmem | hmem
    · exact h2.seen_sub d.txHash (h1.emitted_mem d hmem)
    · exact h2.emitted_mem d hmem
  · intro x hx
    rw [countHash_append, h1.seen_not_emitted x hx,
      h2.seen_not_emitted x (h1.seen_sub x hx)]
  · intro x
    rw [countHash_append]
    by_cases hc : 0 < countHash x r1.2
    · rcases (countHash_pos_iff x r1.2).mp hc with ⟨d, hd, he⟩
      have hx1 : x ∈ r1.1 := he ▸ h1.emitted_mem d hd
      rw [h2.seen_not_emitted x hx1]
      have := h1.at_most_once x
      omega
    · have hz : countHash x r1.2 = 0 := by omega
      rw [hz, zero_add]; exact h2.at_most_once x
  · intro x hx
    rcases h2.insert_only_emit x hx with hmem | ⟨d, hd, he⟩
    · rcases h1.insert_only_emit x hmem with hs | ⟨d, hd, he⟩
      · exact Or.inl hs
      · exact Or.inr ⟨d, List.mem_append_left _ hd, he⟩
    · exact Or.inr ⟨d, List.mem_append_right _ hd, he⟩

/-- A run of compliant steps is compliant. -/
theorem runOps_spec {α : Type} (step : List String → α → List String × List Deposit)
    (hstep : ∀ seen a, LoopSpec seen (step seen a)) :
    ∀ (ops : List α) (seen : List String), LoopSpec seen (runOps step seen ops) := by
  intro ops
  induction ops with
  | nil => intro seen; exact LoopSpec.base seen
  | cons op rest ih =>
    intro seen
    exact LoopSpec.seq (hstep seen op) (ih (step seen op).1)

/-- The TRC20 polling loop obeys the dedup discipline. -/
theorem Trc20.trcLoop_dedup (lookup : Lookup) (address : String) :
    ∀ (txs : List Trc20.TrcTx) (seen : List String),
      LoopSpec seen (Trc20.checkAddressLoop lookup address seen txs) := by
  intro txs
  induction txs with
  | nil => intro seen; exact LoopSpec.base seen
  | cons tx rest ih =>
    intro seen
    rw [Trc20.checkAddressLoop]
    split
    next hcond =>
      cases hl : lookup address "trc20" with
      | some userId => exact LoopSpec.emit hcond.2.2 rfl (ih _)
      | none => exact ih seen
    next _ => exact ih seen

/-- The BEP20 polling loop obeys the dedup discipline. -/
theorem Bep20.bepLoop_dedup (lookup : Lookup) (address : String) :
    ∀ (txs : List Bep20.BepTx) (seen : List String),
      LoopSpec seen (Bep20.checkAddressLoop lookup address seen txs) := by
  intro txs
  induction txs with
  | nil => intro seen; exact LoopSpec.base seen
  | cons tx rest ih =>
    intro seen
    rw [Bep20.checkAddressLoop]
    split
    next hcond =>
      cases hl : lookup address "bep20" with
      | some userId => exact LoopSpec.emit hcond.2.2 rfl (ih _)
      | none => exact ih seen
    next _ => exact ih seen

/-- The BTC polling loop of the WebSocket variant obeys the dedup discipline. -/
theorem BtcWs.btcLoop_dedup (lookup : Lookup) (price : Option ℚ) (address : String) :
    ∀ (txs : List BtcWs.BtcTx) (seen : List String),
      LoopSpec seen (BtcWs.checkAddressLoop lookup price address seen txs) := by
  intro txs
  induction txs with
  | nil => intro seen; exact LoopSpec.base seen
  | cons tx rest ih =>
    intro seen
    rw [BtcWs.checkAddressLoop]
    split
    next _ => exact ih seen
    next hseen =>
      dsimp only
      split
      next _ => exact ih seen
      next _ =>
        split
        next userId _ =>
          refine LoopSpec.emit hseen ?_ (ih _)
          rfl
        next _ => exact ih seen

/-- The TRC20 `checkAddress` (loop plus error handling) obeys the dedup discipline. -/
theorem Trc20.trcCheck_dedup (lookup : Lookup) (address : String)
    (resp : Option (List Trc20.TrcTx)) (seen : List String) :
    LoopSpec seen (Trc20.checkAddress lookup address resp seen) := by
  cases resp with
  | none => exact LoopSpec.base seen
  | some txs => exact Trc20.trcLoop_dedup lookup address txs seen

/-- The BEP20 `checkAddress` obeys the dedup discipline. -/
theorem Bep20.bepCheck_dedup (lookup : Lookup) (address : String)
    (resp : Option (List Bep20.BepTx)) (seen : List String) :
    LoopSpec seen (Bep20.checkAddress lookup address resp seen) := by
  cases resp with
  | none => exact LoopSpec.base seen
  | some txs => exact Bep20.bepLoop_dedup lookup address txs seen

/-- The BTC WebSocket-variant `checkAddress` obeys the dedup discipline. -/
theorem BtcWs.btcCheck_dedup (lookup : Lookup) (price : Option ℚ) (address : String)
    (resp : Option (List BtcWs.BtcTx)) (seen : List String) :
    LoopSpec seen (BtcWs.checkAddress lookup price address resp seen) := by
  cases resp with
  | none => exact LoopSpec.base seen
  | some txs => exact BtcWs.btcLoop_dedup lookup price address txs seen

/-- The BEP20 push handler obeys the dedup discipline. -/
theorem Bep20Ws.processRealTimeTransaction_spec (lookup : Lookup) (now : String)
    (seen : List String) (tx : Bep20Ws.BepRtTx) :
    LoopSpec seen (Bep20Ws.processRealTimeTransaction lookup now seen tx) := by
  rw [Bep20Ws.processRealTimeTransaction]
  split
  next _ => exact LoopSpec.base seen
  next hseen =>
    split
    next c _ =>
      split
      next _ =>
        split
        next userId _ =>
          refine LoopSpec.emit hseen ?_ (LoopSpec.base _)
          rfl
        next _ => exact LoopSpec.base seen
      next _ => exact LoopSpec.base seen
    next _ => exact LoopSpec.base seen

/-- The BTC push-handler output loop never returns a non-empty deposit list: it either skips
every output or hits the unbound `btcPrice` identifier and throws. -/
theorem BtcWs.rtOutputsLoop_ok (lookup : Lookup) (watched : List String) :
    ∀ (outs : List BtcWs.BtcRtOutput) (l : List Deposit),
      BtcWs.rtOutputsLoop lookup watched outs = Except.ok l → l = [] := by
  intro outs
  induction outs with
  | nil =>
    intro l hl
    simp only [BtcWs.rtOutputsLoop] at hl
    cases hl
    rfl
  | cons o rest ih =>
    intro l hl
    rw [BtcWs.rtOutputsLoop] at hl
    split at hl
    next outputAddress _ =>
      split at hl
      next _ =>
        split at hl
        next _ _ => cases hl
        next _ => exact ih l hl
      next _ => exact ih l hl
    next _ => exact ih l hl

/-- The BTC push handler is inert: it always returns the empty deposit list with the dedup set
unchanged. -/
theorem BtcWs.processRealTimeTransaction_eq (lookup : Lookup) (watched : List String)
    (seen : List String) (tx : BtcWs.BtcRtTx) :
    BtcWs.processRealTimeTransaction lookup watched seen tx = (seen, []) := by
  rw [BtcWs.processRealTimeTransaction]
  split
  next _ => rfl
  next _ =>
    split
    next outs houts =>
      split
      next _ => rfl
      next deposits hloop =>
        have hnil := BtcWs.rtOutputsLoop_ok lookup watched outs deposits hloop
        subst hnil
        rfl
    next _ => rfl

/-- Every atomic BTC watcher step obeys the dedup discipline. -/
theorem BtcOp.btcStep_dedup (seen : List String) (op : BtcOp) :
    LoopSpec seen (BtcOp.step seen op) := by
  cases op with
  | poll lookup price address resp => exact BtcWs.btcCheck_dedup lookup price address resp seen
  | push lookup watched tx =>
    have h := BtcWs.processRealTimeTransaction_eq lookup watched seen tx
    rw [BtcOp.step, h]
    exact LoopSpec.base seen

/-- Every atomic TRC20 watcher step obeys the dedup discipline. -/
theorem TrcOp.trcStep_dedup (seen : List String) (op : TrcOp) :
    LoopSpec seen (TrcOp.step seen op) := by
  cases op with
  | poll lookup address resp => exact Trc20.trcCheck_dedup lookup address resp seen

/-- Every atomic BEP20 watcher step obeys the dedup discipline. -/
theorem BepOp.bepStep_dedup (seen : List String) (op : BepOp) :
    LoopSpec seen (BepOp.step seen op) := by
  cases op with
  | poll lookup address resp => exact Bep20.bepCheck_dedup lookup address resp seen
  | push lookup now tx => exact Bep20Ws.processRealTimeTransaction_spec lookup now seen tx

/-- If some output of a push transaction pays a watched, owned address, the BTC push-handler
output loop reaches the unbound `btcPrice` identifier and throws. -/
theorem BtcWs.rtOutputsLoop_error (lookup : Lookup) (watched : List String) :
    ∀ outs : List BtcWs.BtcRtOutput,
      (∃ o, o ∈ outs ∧ ∃ a, o.addr = some a ∧ a ∈ watched ∧ (lookup a "btc").isSome) →
      BtcWs.rtOutputsLoop lookup watched outs = Except.error () := by
  intro outs
  induction outs with
  | nil =>
    rintro ⟨o, ho, -⟩
    simp at ho
  | cons o rest ih =>
    rintro ⟨o2, ho2, a, ha, hw, hl⟩
    rcases List.mem_cons.mp ho2 with rfl | hmem
    · rw [BtcWs.rtOutputsLoop, ha]
      dsimp only
      rw [if_pos hw]
      rcases Option.isSome_iff_exists.mp hl with ⟨u, hu⟩
      rw [hu]
    · rw [BtcWs.rtOutputsLoop]
      split
      next outputAddress hoa =>
        split
        next _ =>
          split
          next _ _ => rfl
          next _ => exact ih ⟨o2, hmem, a, ha, hw, hl⟩
        next _ => exact ih ⟨o2, hmem, a, ha, hw, hl⟩
      next _ => exact ih ⟨o2, hmem, a, ha, hw, hl⟩

/-- C1: for every watcher (BTC, BEP20, TRC20), over any process-lifetime sequence of atomic
detection steps — polling `checkAddress` invocations and push events, in any order, under any
sequence of directory snapshots, provider responses and prices — at most one emitted deposit
carries any given transaction hash. -/
theorem c1_exactly_once_per_hash_per_watcher
    (btcOps : List BtcOp) (trcOps : List TrcOp) (bepOps : List BepOp) (h : String) :
    countHash h (runOps BtcOp.step [] btcOps).2 ≤ 1 ∧
    countHash h (runOps TrcOp.step [] trcOps).2 ≤ 1 ∧
    countHash h (runOps BepOp.step [] bepOps).2 ≤ 1 :=
  ⟨(runOps_spec BtcOp.step BtcOp.btcStep_dedup btcOps []).at_most_once h,
   (runOps_spec TrcOp.step TrcOp.trcStep_dedup trcOps []).at_most_once h,
   (runOps_spec BepOp.step BepOp.bepStep_dedup bepOps []).at_most_once h⟩

/-- C4: the BTC push handler `processRealTimeTransaction` always returns the empty deposit list
with the dedup set unchanged; whenever an event's outputs pay a watched, owned address the
output loop reaches the unbound identifier `btcPrice` and throws, and the error is caught and
converted to the empty result — so BTC deposits can only come from the polling path. -/
theorem c4_btc_push_handler_inert (lookup : Lookup) (watched seen : List String)
    (tx : BtcWs.BtcRtTx) :
    BtcWs.processRealTimeTransaction lookup watched seen tx = (seen, []) ∧
    (∀ outs, tx.out = some outs →
      (∃ o, o ∈ outs ∧ ∃ a, o.addr = some a ∧ a ∈ watched ∧ (lookup a "btc").isSome) →
      BtcWs.rtOutputsLoop lookup watched outs = Except.error ()) :=
  ⟨BtcWs.processRealTimeTransaction_eq lookup watched seen tx,
   fun outs _ hex => BtcWs.rtOutputsLoop_error lookup watched outs hex⟩

/-- Concrete directory lookup used by the C4 witness: address A1 on chain btc belongs to u1. -/
def lookupC4 : Lookup :=
  fun a n => if a = "A1" ∧ n = "btc" then some "u1" else none

/-- Concrete push event used by the C4 witness: pays 5 satoshis to watched address A1. -/
def txC4 : BtcWs.BtcRtTx :=
  { hash := "H1", out := some [{ addr := some "A1", value := 5 }] }

/-- Witness for C4 at a concrete input: the event pays a watched, owned address, yet the handler
returns no deposits and leaves the set unchanged, the output loop having thrown. -/
theorem c4_witness :
    BtcWs.processRealTimeTransaction lookupC4 ["A1"] ["x"] txC4 = (["x"], []) ∧
    BtcWs.rtOutputsLoop lookupC4 ["A1"] [{ addr := some "A1", value := 5 }] =
      Except.error () := by
  have h := c4_btc_push_handler_inert lookupC4 ["A1"] ["x"] txC4
  exact ⟨h.1, h.2 [{ addr := some "A1", value := 5 }] rfl (by decide)⟩

/-- Concrete directory lookup: addr1 on chain btc belongs to user1. -/
def lookupC2 : Lookup :=
  fun a n => if a = "addr1" ∧ n = "btc" then some "user1" else none

/-- Concrete BlockCypher transaction paying 150000000 satoshis (1.5 BTC) to addr1. -/
def btcTxC2 : BtcWs.BtcTx :=
  { hash := "h1", outputs := [{ addresses := some ["addr1"], value := 150000000 }],
    inputAddr := some "sender1", received := "2025-01-01T00:00:00.000Z",
    confirmations := some 2 }

/-- C2: refuted on the WebSocket btcService variant (src/unnamed/part_000): for a poll-path
deposit of 150000000 satoshis its `checkAddress` emits `amount = (sats/1e8) * btcPrice` — the
fiat value — which is `0` when the price lookup failed (`null`) and `30000` at price 20000,
never the claimed `1.5`; the poll-only variant at src/services/btcService.js emits the claimed
`sats / 100000000 = 1.5`. The deposit itself is still emitted in every case (a failed price
lookup does not block detection). -/
theorem c2_btcws_amount_is_fiat_not_btc :
    ((BtcWs.checkAddress lookupC2 none "addr1" (some [btcTxC2]) []).2.map
      (fun d => d.amount) = [0]) ∧
    ((BtcWs.checkAddress lookupC2 (some 20000) "addr1" (some [btcTxC2]) []).2.map
      (fun d => d.amount) = [30000]) ∧
    ((BtcPoll.checkAddress lookupC2 "addr1" (some [btcTxC2]) []).2.map
      (fun d => d.amount) = [3 / 2]) ∧
    ((3 : ℚ) / 2 ≠ 0 ∧ (3 : ℚ) / 2 ≠ 30000) := by
  refine ⟨?_, ?_, ?_, by norm_num⟩ <;>
    norm_num [BtcWs.checkAddress, BtcWs.checkAddressLoop, BtcPoll.checkAddress,
      BtcPoll.checkAddressLoop, lookupC2, btcTxC2, jsMulNull, jsOrNat]

/-- Concrete directory lookup: A3 on chain bep20 belongs to u1. -/
def lookupC3 : Lookup :=
  fun a n => if a = "A3" ∧ n = "bep20" then some "u1" else none

/-- Concrete BEP20 push event: 1 USDT (1e18 base units) of the tracked contract to A3. -/
def txC3 : Bep20Ws.BepRtTx :=
  { hash := "H3", contractAddress := some Bep20.USDT_CONTRACT, toAddr := "A3",
    fromAddr := "F3", value := 1000000000000000000 }

/-- C3 counterexample: the BEP20 push handler emits its deposit with `confirmations = 1`,
not the claimed `0`. -/
theorem c3_counterexample_bep20_confirmations :
    ((Bep20Ws.processRealTimeTransaction lookupC3 "T-now" [] txC3).2.map
      (fun d => d.confirmations) = [1]) ∧ (1 : Nat) ≠ 0 := by
  refine ⟨by simp [Bep20Ws.processRealTimeTransaction, txC3, lookupC3], by decide⟩

/-- C3 (amended): every deposit a push handler emits carries the receipt-time timestamp; the
BEP20 handler stamps `confirmations = 1` (not 0), and the BTC push handler emits no deposits
at all. -/
theorem c3_amended_push_metadata :
    (∀ (lookup : Lookup) (now : String) (seen : List String) (tx : Bep20Ws.BepRtTx)
        (d : Deposit), d ∈ (Bep20Ws.processRealTimeTransaction lookup now seen tx).2 →
        d.confirmations = 1 ∧ d.timestamp = now) ∧
    (∀ (lookup : Lookup) (watched seen : List String) (tx : BtcWs.BtcRtTx),
        (BtcWs.processRealTimeTransaction lookup watched seen tx).2 = []) := by
  constructor
  · intro lookup now seen tx d hd
    rw [Bep20Ws.processRealTimeTransaction] at hd
    split at hd
    next _ => simp at hd
    next _ =>
      split at hd
      next c _ =>
        split at hd
        next _ =>
          split at hd
          next userId _ =>
            dsimp only at hd
            rcases List.mem_singleton.mp hd with rfl
            exact ⟨rfl, rfl⟩
          next _ => simp at hd
        next _ => simp at hd
      next _ => simp at hd
  · intro lookup watched seen tx
    rw [BtcWs.processRealTimeTransaction_eq]

/-- Concrete deposit the BEP20 push handler emits for `txC3` at receipt time T-now. -/
def dC3 : Deposit :=
  { userId := "u1", dtype := "deposit", asset := "usdt", network := "bep20", amount := 1,
    txHash := "H3", fromAddr := "F3", toAddr := "A3", timestamp := "T-now",
    confirmations := 1 }

/-- Witness for the amended C3 at a concrete input. -/
theorem c3_witness : dC3.confirmations = 1 ∧ dC3.timestamp = "T-now" :=
  c3_amended_push_metadata.1 lookupC3 "T-now" [] txC3 dC3
    (by norm_num [Bep20Ws.processRealTimeTransaction, txC3, lookupC3, dC3])

/-- Concrete directory lookup: A7 on chain trc20 belongs to u7. -/
def lookupC7 : Lookup :=
  fun a n => if a = "A7" ∧ n = "trc20" then some "u7" else none

/-- Concrete TronGrid transfer whose token metadata reports `decimals: 0` with raw value 5. -/
def txC7 : Trc20.TrcTx :=
  { transaction_id := "T7",
    token_info := { address := Trc20.USDT_CONTRACT, symbol := "USDT", decimals := some 0 },
    toAddr := "A7", fromAddr := "F7", value := 5, block_timestamp := 1700000000000,
    confirmations := none }

/-- C7 counterexample: for a provider-supplied `decimals = 0` (present, not omitted) the code's
`tx.token_info.decimals || 6` still falls back to 6, so the emitted amount is `5 / 10^6`,
not the claimed `5 / 10^0 = 5`. -/
theorem c7_counterexample_zero_decimals :
    ((Trc20.checkAddress lookupC7 "A7" (some [txC7]) []).2.map
      (fun d => d.amount) = [5 / 1000000]) ∧
    ((5 : ℚ) / 1000000 ≠ 5 / 10 ^ (0 : Nat)) := by
  refine ⟨?_, by norm_num⟩
  norm_num [Trc20.checkAddress, Trc20.checkAddressLoop, lookupC7, txC7, jsOrNat]

/-- C7 (amended): every TRC20 deposit's amount is `rawValue / 10^decimals`, where `decimals`
defaults to 6 when the provider omits it or reports it as 0 (any JS-falsy value), and is taken
from the token metadata otherwise. -/
theorem c7_amended_amount_decimals :
    (∀ (lookup : Lookup) (address : String) (txs : List Trc20.TrcTx) (seen : List String)
        (d : Deposit), d ∈ (Trc20.checkAddressLoop lookup address seen txs).2 →
        ∃ tx, tx ∈ txs ∧ d.txHash = tx.transaction_id ∧
          d.amount = (tx.value : ℚ) / 10 ^ (jsOrNat tx.token_info.decimals 6)) ∧
    jsOrNat none 6 = 6 ∧ jsOrNat (some 0) 6 = 6 ∧ ∀ k, jsOrNat (some (k + 1)) 6 = k + 1 := by
  refine ⟨?_, rfl, rfl, fun k => rfl⟩
  intro lookup address txs
  induction txs with
  | nil =>
    intro seen d hd
    rw [Trc20.checkAddressLoop] at hd
    simp at hd
  | cons tx rest ih =>
    intro seen d hd
    rw [Trc20.checkAddressLoop] at hd
    split at hd
    next _ =>
      split at hd
      next userId _ =>
        dsimp only at hd
        rcases List.mem_cons.mp hd with rfl | hmem
        · exact ⟨tx, List.mem_cons_self _ _, rfl, rfl⟩
        · rcases ih _ d hmem with ⟨tx2, htx2, he, ha⟩
          exact ⟨tx2, List.mem_cons_of_mem _ htx2, he, ha⟩
      next _ =>
        rcases ih _ d hd with ⟨tx2, htx2, he, ha⟩
        exact ⟨tx2, List.mem_cons_of_mem _ htx2, he, ha⟩
    next _ =>
      rcases ih _ d hd with ⟨tx2, htx2, he, ha⟩
      exact ⟨tx2, List.mem_cons_of_mem _ htx2, he, ha⟩

/-- Concrete directory lookup: A8 on chain trc20 belongs to u8. -/
def lookupC7b : Lookup :=
  fun a n => if a = "A8" ∧ n = "trc20" then some "u8" else none

/-- Concrete TronGrid transfer with `decimals: 6` and raw value 1000000 (= 1.0 USDT). -/
def txC7b : Trc20.TrcTx :=
  { transaction_id := "T8",
    token_info := { address := Trc20.USDT_CONTRACT, symbol := "USDT", decimals := some 6 },
    toAddr := "A8", fromAddr := "F8", value := 1000000, block_timestamp := 1700000000000,
    confirmations := some 3 }

/-- Concrete deposit the TRC20 loop emits for `txC7b`. -/
def dC7 : Deposit :=
  { userId := "u8", dtype := "deposit", asset := "usdt", network := "trc20", amount := 1,
    txHash := "T8", fromAddr := "F8", toAddr := "A8",
    timestamp := epochIso 1700000000000, confirmations := 3 }

/-- Witness for the amended C7 at a concrete input: value 1000000 at 6 decimals gives 1.0. -/
theorem c7_witness :
    (∃ tx, tx ∈ [txC7b] ∧ dC7.txHash = tx.transaction_id ∧
      dC7.amount = (tx.value : ℚ) / 10 ^ (jsOrNat tx.token_info.decimals 6)) ∧
    jsOrNat (some 0) 6 = 6 :=
  ⟨c7_amended_amount_decimals.1 lookupC7b "A8" [txC7b] [] dC7
    (by norm_num [Trc20.checkAddressLoop, lookupC7b, txC7b, dC7, jsOrNat, epochIso]),
   c7_amended_amount_decimals.2.2.1⟩

/-- Concrete monitor state with every timer set and every channel open. -/
def monAllOn : DepositService.MonState :=
  { monitoringInterval := true, addressRefreshInterval := true,
    trc20QuickPollInterval := true, btcWsReconnectPending := true, btcWsOpen := true,
    bep20WsReconnectPending := true, bep20WsOpen := true }

/-- C5 counterexample: with a BTC and a BEP20 reconnect timer pending and both channels open,
`stopMonitoring` leaves the reconnect timers pending and the channels open — neither service
exports a `stop` method, so the `typeof service.stop === 'function'` guards skip them and a
pending reconnect can resurrect the connection after a deliberate stop. -/
theorem c5_counterexample_stop_leaves_ws :
    (DepositService.stopMonitoring monAllOn).btcWsReconnectPending = true ∧
    (DepositService.stopMonitoring monAllOn).bep20WsReconnectPending = true ∧
    (DepositService.stopMonitoring monAllOn).btcWsOpen = true ∧
    (DepositService.stopMonitoring monAllOn).bep20WsOpen = true ∧
    (DepositService.stopMonitoring monAllOn).monitoringInterval = false ∧
    (DepositService.stopMonitoring monAllOn).addressRefreshInterval = false := by
  refine ⟨rfl, rfl, rfl, rfl, rfl, rfl⟩

/-- C5 (amended): `stopMonitoring` cancels exactly the two depositService interval timers and
(via trc20Service.stop) the TRC20 quick-poll timer; the BTC and BEP20 watchers' pending
reconnect timers and open push channels are untouched, because their default exports have no
`stop` method. -/
theorem c5_amended_stop_clears_intervals_only (s : DepositService.MonState) :
    DepositService.stopMonitoring s =
      { s with monitoringInterval := false, addressRefreshInterval := false,
               trc20QuickPollInterval := false } := by
  cases s
  rfl

/-- C6: a directory refresh that fails — a thrown network error or a response whose success
flag is false — reports failure and leaves the whole in-memory snapshot (grouped lists and
detailed records) unchanged, so `getAddresses` afterwards returns exactly the prior snapshot. -/
theorem c6_refresh_failure_keeps_snapshot (st : AddressService.AddrState)
    (r : AddressService.FetchResponse)
    (hfail : r = AddressService.FetchResponse.networkError ∨ r.successFlag = false) :
    AddressService.fetchAddresses st r = (false, st) ∧
    AddressService.getAddresses (AddressService.fetchAddresses st r).2 =
      AddressService.getAddresses st := by
  have h1 : AddressService.fetchAddresses st r = (false, st) := by
    rcases hfail with rfl | hflag
    · rfl
    · cases r with
      | networkError => rfl
      | payload success grouped detailed =>
        simp only [AddressService.FetchResponse.successFlag] at hflag
        simp [AddressService.fetchAddresses, hflag]
  exact ⟨h1, by rw [h1]⟩

/-- Concrete snapshot used by the C6 witness. -/
def addrStC6 : AddressService.AddrState :=
  { addresses := { bep20 := ["B1"], trc20 := ["T1"], btc := ["X1"] },
    addressDetails :=
      [{ userId := "u1", addresses := { bep20 := "B1", trc20 := "T1", btc := "X1" } }] }

/-- Witness for C6 at a concrete input: a success-false payload is rejected atomically. -/
theorem c6_witness :
    AddressService.fetchAddresses addrStC6
      (AddressService.FetchResponse.payload false { bep20 := [], trc20 := [], btc := [] } []) =
      (false, addrStC6) ∧
    AddressService.getAddresses
      (AddressService.fetchAddresses addrStC6
        (AddressService.FetchResponse.payload false
          { bep20 := [], trc20 := [], btc := [] } [])).2 =
      AddressService.getAddresses addrStC6 :=
  c6_refresh_failure_keeps_snapshot addrStC6
    (AddressService.FetchResponse.payload false { bep20 := [], trc20 := [], btc := [] } [])
    (Or.inr rfl)

/-- From a well-formed timer state, `reconnectWebSocket` leaves exactly one pending timer: the
fresh 5000 ms reconnect. -/
theorem WsTimer.reconnect_spec {st : WsTimer.WsState} (h : WsTimer.WsInv st) :
    WsTimer.reconnectWebSocket st =
      { pending := [(st.nextId, 5000)], wsReconnectTimeout := some st.nextId,
        nextId := st.nextId + 1 } := by
  rw [WsTimer.reconnectWebSocket]
  have hp : (match st.wsReconnectTimeout with
      | some i => WsTimer.clearPending st i
      | none => st).pending = [] ∧
      (match st.wsReconnectTimeout with
      | some i => WsTimer.clearPending st i
      | none => st).nextId = st.nextId := by
    cases hw : st.wsReconnectTimeout with
    | none =>
      refine ⟨?_, rfl⟩
      cases hpend : st.pending with
      | nil => rfl
      | cons p rest =>
        have := (h.1 p (hpend ▸ List.mem_cons_self p rest)).1
        rw [hw] at this
        cases this
    | some i =>
      refine ⟨?_, rfl⟩
      simp only [WsTimer.clearPending]
      rw [List.filter_eq_nil_iff]
      intro p hp
      have := (h.1 p hp).1
      rw [hw] at this
      have hpi : p.1 = i := by
        cases this
        rfl
      simp [hpi]
  rw [hp.1, hp.2]
  rfl

/-- One reconnect step preserves well-formedness and leaves a single pending 5000 ms timer. -/
theorem WsTimer.reconnect_inv {st : WsTimer.WsState} (h : WsTimer.WsInv st) :
    WsTimer.WsInv (WsTimer.reconnectWebSocket st) ∧
      ∃ i, (WsTimer.reconnectWebSocket st).pending = [(i, 5000)] := by
  rw [WsTimer.reconnect_spec h]
  refine ⟨⟨?_, by simp⟩, ⟨st.nextId, rfl⟩⟩
  intro p hp
  rcases List.mem_singleton.mp hp with rfl
  exact ⟨rfl, rfl⟩

/-- C8: every `close`/`error` event calls `reconnectWebSocket`, which first cancels any pending
reconnect timer and then schedules a fresh one at the fixed 5000 ms delay — so after any
non-empty burst of disconnect events (close, error, or both in either order) exactly one
reconnect timer is pending, and well-formedness (at most one pending, tracked by
`wsReconnectTimeout`) is preserved throughout. -/
theorem c8_single_reconnect_timer (evs : List WsTimer.WsEvent) (st : WsTimer.WsState)
    (hinv : WsTimer.WsInv st) :
    WsTimer.WsInv (WsTimer.runWsEvents st evs) ∧
    (evs ≠ [] → ∃ i, (WsTimer.runWsEvents st evs).pending = [(i, 5000)]) := by
  induction evs generalizing st with
  | nil => exact ⟨hinv, fun hne => absurd rfl hne⟩
  | cons e rest ih =>
    have hh : WsTimer.handleWsEvent st e = WsTimer.reconnectWebSocket st := by
      cases e <;> rfl
    rw [WsTimer.runWsEvents, hh]
    have hstep := WsTimer.reconnect_inv hinv
    have hmain := ih (WsTimer.reconnectWebSocket st) hstep.1
    refine ⟨hmain.1, fun _ => ?_⟩
    cases rest with
    | nil =>
      rw [WsTimer.runWsEvents]
      exact hstep.2
    | cons e2 rest2 => exact hmain.2 (by simp)

/-- Witness for C8 at a concrete input: a `close` followed by an `error` for the same
disconnect, from the initial module state, leaves exactly one pending 5000 ms timer. -/
theorem c8_witness :
    WsTimer.WsInv (WsTimer.runWsEvents WsTimer.initialWsState
      [WsTimer.WsEvent.closeEv, WsTimer.WsEvent.errorEv]) ∧
    ([WsTimer.WsEvent.closeEv, WsTimer.WsEvent.errorEv] ≠ [] →
      ∃ i, (WsTimer.runWsEvents WsTimer.initialWsState
        [WsTimer.WsEvent.closeEv, WsTimer.WsEvent.errorEv]).pending = [(i, 5000)]) :=
  c8_single_reconnect_timer [WsTimer.WsEvent.closeEv, WsTimer.WsEvent.errorEv]
    WsTimer.initialWsState (by decide)

/-- Discriminator for delivery-boundary calls. -/
def DepositService.AggCall.isDelivery : DepositService.AggCall → Bool
  | .deliveryPost _ => true
  | _ => false

/-- The delivery branch of `checkDeposits` posts the batch exactly once iff it is non-empty. -/
theorem DepositService.delivery_shape (l : List Deposit) :
    (if l.length > 0 then DepositService.processDeposits l else []) =
      (if l = [] then [] else [DepositService.AggCall.deliveryPost l]) := by
  by_cases hl : l = []
  · subst hl
    simp [DepositService.processDeposits]
  · have hpos : l.length > 0 := List.length_pos.mpr hl
    have hnz : ¬ l.length = 0 := by omega
    simp [DepositService.processDeposits, hl, hpos, hnz]

/-- C9: one `checkDeposits` cycle invokes the watchers in the fixed order BEP20, TRC20, BTC,
returns the concatenation of their result sequences in that same order, and calls the delivery
boundary (`processDeposits` → one POST) exactly once when the combined sequence is non-empty
and zero times when it is empty. -/
theorem c9_checkDeposits_order_and_delivery (env : DepositService.Providers)
    (st : DepositService.DedupSets) :
    (DepositService.checkDeposits env st).2.1 =
      (Bep20.checkAllAddresses env.lookup env.bepResp env.grouped.bep20 st.bep20Seen).2 ++
      (Trc20.checkAllAddresses env.lookup env.trcResp env.grouped.trc20 st.trc20Seen).2 ++
      (BtcWs.checkAllAddresses env.lookup env.btcPrice env.btcResp env.grouped.btc
        st.btcSeen).2 ∧
    (DepositService.checkDeposits env st).2.2 =
      [DepositService.AggCall.bep20Check, DepositService.AggCall.trc20Check,
        DepositService.AggCall.btcCheck] ++
      (if (DepositService.checkDeposits env st).2.1 = [] then []
       else [DepositService.AggCall.deliveryPost (DepositService.checkDeposits env st).2.1]) ∧
    ((DepositService.checkDeposits env st).2.2.countP DepositService.AggCall.isDelivery) =
      (if (DepositService.checkDeposits env st).2.1 = [] then 0 else 1) := by
  have hall : (DepositService.checkDeposits env st).2.1 =
      (Bep20.checkAllAddresses env.lookup env.bepResp env.grouped.bep20 st.bep20Seen).2 ++
      (Trc20.checkAllAddresses env.lookup env.trcResp env.grouped.trc20 st.trc20Seen).2 ++
      (BtcWs.checkAllAddresses env.lookup env.btcPrice env.btcResp env.grouped.btc
        st.btcSeen).2 := rfl
  refine ⟨hall, ?_, ?_⟩
  · show [DepositService.AggCall.bep20Check, DepositService.AggCall.trc20Check,
        DepositService.AggCall.btcCheck] ++ _ = _
    rw [DepositService.delivery_shape, hall]
  · show ([DepositService.AggCall.bep20Check, DepositService.AggCall.trc20Check,
        DepositService.AggCall.btcCheck] ++ _).countP _ = _
    rw [DepositService.delivery_shape, List.countP_append, hall]
    by_cases hl : ((Bep20.checkAllAddresses env.lookup env.bepResp env.grouped.bep20
        st.bep20Seen).2 ++
      (Trc20.checkAllAddresses env.lookup env.trcResp env.grouped.trc20 st.trc20Seen).2 ++
      (BtcWs.checkAllAddresses env.lookup env.btcPrice env.btcResp env.grouped.btc
        st.btcSeen).2) = []
    · rw [if_pos hl, if_pos hl]
      rfl
    · rw [if_neg hl, if_neg hl]
      rfl

/-- If the directory resolves no owner for the address, the TRC20 loop emits nothing and marks
nothing as seen. -/
theorem Trc20.trcLoop_no_owner (lookup : Lookup) (address : String)
    (hl : lookup address "trc20" = none) :
    ∀ (txs : List Trc20.TrcTx) (seen : List String),
      Trc20.checkAddressLoop lookup address seen txs = (seen, []) := by
  intro txs
  induction txs with
  | nil => intro seen; rfl
  | cons tx rest ih =>
    intro seen
    rw [Trc20.checkAddressLoop]
    split
    next _ =>
      rw [hl]
      exact ih seen
    next _ => exact ih seen

/-- If the directory resolves no owner for the address, the BEP20 loop emits nothing and marks
nothing as seen. -/
theorem Bep20.bepLoop_no_owner (lookup : Lookup) (address : String)
    (hl : lookup address "bep20" = none) :
    ∀ (txs : List Bep20.BepTx) (seen : List String),
      Bep20.checkAddressLoop lookup address seen txs = (seen, []) := by
  intro txs
  induction txs with
  | nil => intro seen; rfl
  | cons tx rest ih =>
    intro seen
    rw [Bep20.checkAddressLoop]
    split
    next _ =>
      rw [hl]
      exact ih seen
    next _ => exact ih seen

/-- If the directory resolves no owner for the address, the BTC polling loop emits nothing and
marks nothing as seen. -/
theorem BtcWs.btcLoop_no_owner (lookup : Lookup) (price : Option ℚ) (address : String)
    (hl : lookup address "btc" = none) :
    ∀ (txs : List BtcWs.BtcTx) (seen : List String),
      BtcWs.checkAddressLoop lookup price address seen txs = (seen, []) := by
  intro txs
  induction txs with
  | nil => intro seen; rfl
  | cons tx rest ih =>
    intro seen
    rw [BtcWs.checkAddressLoop]
    split
    next _ => exact ih seen
    next _ =>
      dsimp only
      split
      next _ => exact ih seen
      next _ =>
        rw [hl]
        exact ih seen

/-- Once the directory resolves an owner, a later TRC20 check emits the still-unseen
transaction. -/
theorem Trc20.trcLoop_single_emit (lookup : Lookup) (address : String) (tx : Trc20.TrcTx)
    (seen : List String) (u : String) (hl : lookup address "trc20" = some u)
    (hc : tx.token_info.address = Trc20.USDT_CONTRACT) (ht : tx.toAddr = address)
    (hs : tx.transaction_id ∉ seen) :
    (Trc20.checkAddressLoop lookup address seen [tx]).2.map (fun d => d.txHash) =
      [tx.transaction_id] := by
  rw [Trc20.checkAddressLoop, if_pos ⟨hc, ht, hs⟩, hl]
  rfl

/-- Once the directory resolves an owner, a later BEP20 check emits the still-unseen
transaction. -/
theorem Bep20.bepLoop_single_emit (lookup : Lookup) (address : String) (tx : Bep20.BepTx)
    (seen : List String) (u : String) (hl : lookup address "bep20" = some u)
    (hc : tx.contractAddress.toLower = Bep20.USDT_CONTRACT.toLower)
    (ht : tx.toAddr.toLower = address.toLower) (hs : tx.hash ∉ seen) :
    (Bep20.checkAddressLoop lookup address seen [tx]).2.map (fun d => d.txHash) =
      [tx.hash] := by
  rw [Bep20.checkAddressLoop, if_pos ⟨hc, ht, hs⟩, hl]
  rfl

/-- Once the directory resolves an owner, a later BTC poll emits the still-unseen
transaction. -/
theorem BtcWs.btcLoop_single_emit (lookup : Lookup) (price : Option ℚ) (address : String)
    (tx : BtcWs.BtcTx) (seen : List String) (u : String) (hl : lookup address "btc" = some u)
    (hs : tx.hash ∉ seen)
    (hout : (tx.outputs.filter (fun o =>
      match o.addresses with
      | some l => l.contains address
      | none => false)).isEmpty = false) :
    (BtcWs.checkAddressLoop lookup price address seen [tx]).2.map (fun d => d.txHash) =
      [tx.hash] := by
  rw [BtcWs.checkAddressLoop, if_neg hs]
  dsimp only
  rw [hout]
  rw [if_neg (by simp : ¬ (false = true)), hl]
  rfl

/-- C10: in every polling `checkAddress` loop (TRC20, BEP20, BTC) a transaction hash enters the
watcher's dedup set only when a deposit carrying that hash is emitted; when the owner lookup
returns no user the hash is not marked as seen and the set and output are untouched; and a
later check with a resolving directory emits the still-eligible transaction. -/
theorem c10_no_owner_keeps_hash_eligible :
    (∀ (lookup : Lookup) (address : String) (txs : List Trc20.TrcTx) (seen : List String)
        (h : String), h ∈ (Trc20.checkAddressLoop lookup address seen txs).1 →
        h ∈ seen ∨ ∃ d, d ∈ (Trc20.checkAddressLoop lookup address seen txs).2 ∧
          d.txHash = h) ∧
    (∀ (lookup : Lookup) (address : String) (txs : List Bep20.BepTx) (seen : List String)
        (h : String), h ∈ (Bep20.checkAddressLoop lookup address seen txs).1 →
        h ∈ seen ∨ ∃ d, d ∈ (Bep20.checkAddressLoop lookup address seen txs).2 ∧
          d.txHash = h) ∧
    (∀ (lookup : Lookup) (price : Option ℚ) (address : String) (txs : List BtcWs.BtcTx)
        (seen : List String) (h : String),
        h ∈ (BtcWs.checkAddressLoop lookup price address seen txs).1 →
        h ∈ seen ∨ ∃ d, d ∈ (BtcWs.checkAddressLoop lookup price address seen txs).2 ∧
          d.txHash = h) ∧
    (∀ (lookup : Lookup) (address : String) (txs : List Trc20.TrcTx) (seen : List String),
        lookup address "trc20" = none →
        Trc20.checkAddressLoop lookup address seen txs = (seen, [])) ∧
    (∀ (lookup : Lookup) (address : String) (txs : List Bep20.BepTx) (seen : List String),
        lookup address "bep20" = none →
        Bep20.checkAddressLoop lookup address seen txs = (seen, [])) ∧
    (∀ (lookup : Lookup) (price : Option ℚ) (address : String) (txs : List BtcWs.BtcTx)
        (seen : List String), lookup address "btc" = none →
        BtcWs.checkAddressLoop lookup price address seen txs = (seen, [])) ∧
    (∀ (lookup : Lookup) (address : String) (tx : Trc20.TrcTx) (seen : List String)
        (u : String), lookup address "trc20" = some u →
        tx.token_info.address = Trc20.USDT_CONTRACT → tx.toAddr = address →
        tx.transaction_id ∉ seen →
        (Trc20.checkAddressLoop lookup address seen [tx]).2.map (fun d => d.txHash) =
          [tx.transaction_id]) ∧
    (∀ (lookup : Lookup) (address : String) (tx : Bep20.BepTx) (seen : List String)
        (u : String), lookup address "bep20" = some u →
        tx.contractAddress.toLower = Bep20.USDT_CONTRACT.toLower →
        tx.toAddr.toLower = address.toLower → tx.hash ∉ seen →
        (Bep20.checkAddressLoop lookup address seen [tx]).2.map (fun d => d.txHash) =
          [tx.hash]) ∧
    (∀ (lookup : Lookup) (price : Option ℚ) (address : String) (tx : BtcWs.BtcTx)
        (seen : List String) (u : String), lookup address "btc" = some u →
        tx.hash ∉ seen →
        (tx.outputs.filter (fun o =>
          match o.addresses with
          | some l => l.contains address
          | none => false)).isEmpty = false →
        (BtcWs.checkAddressLoop lookup price address seen [tx]).2.map (fun d => d.txHash) =
          [tx.hash]) := by
  refine ⟨?_, ?_, ?_, ?_, ?_, ?_, ?_, ?_, ?_⟩
  · intro lookup address txs seen h hmem
    exact (Trc20.trcLoop_dedup lookup address txs seen).insert_only_emit h hmem
  · intro lookup address txs seen h hmem
    exact (Bep20.bepLoop_dedup lookup address txs seen).insert_only_emit h hmem
  · intro lookup price address txs seen h hmem
    exact (BtcWs.btcLoop_dedup lookup price address txs seen).insert_only_emit h hmem
  · intro lookup address txs seen hl
    exact Trc20.trcLoop_no_owner lookup address hl txs seen
  · intro lookup address txs seen hl
    exact Bep20.bepLoop_no_owner lookup address hl txs seen
  · intro lookup price address txs seen hl
    exact BtcWs.btcLoop_no_owner lookup price address hl txs seen
  · intro lookup address tx seen u hl hc ht hs
    exact Trc20.trcLoop_single_emit lookup address tx seen u hl hc ht hs
  · intro lookup address tx seen u hl hc ht hs
    exact Bep20.bepLoop_single_emit lookup address tx seen u hl hc ht hs
  · intro lookup price address tx seen u hl hs hout
    exact BtcWs.btcLoop_single_emit lookup price address tx seen u hl hs hout

/-- Lookup for the C10 witness while the directory has no owner for anything. -/
def lookupC10none : Lookup := fun _ _ => none

/-- Lookup for the C10 witness after the directory resolves A9 on trc20 to u9. -/
def lookupC10own : Lookup :=
  fun a n => if a = "A9" ∧ n = "trc20" then some "u9" else none

/-- Concrete TronGrid transfer used by the C10 witness. -/
def txC10 : Trc20.TrcTx :=
  { transaction_id := "T9",
    token_info := { address := Trc20.USDT_CONTRACT, symbol := "USDT", decimals := some 6 },
    toAddr := "A9", fromAddr := "F9", value := 7, block_timestamp := 1,
    confirmations := none }

/-- Witness for C10 at a concrete input: with an ownerless directory the hash stays unmarked,
and once ownership resolves the same transaction is emitted; and the inserted hash always has
an emitted deposit. -/
theorem c10_witness :
    Trc20.checkAddressLoop lookupC10none "A9" ["z"] [txC10] = (["z"], []) ∧
    (Trc20.checkAddressLoop lookupC10own "A9" [] [txC10]).2.map (fun d => d.txHash) =
      [txC10.transaction_id] ∧
    ("T9" ∈ [] ∨ ∃ d, d ∈ (Trc20.checkAddressLoop lookupC10own "A9" [] [txC10]).2 ∧
      d.txHash = "T9") :=
  ⟨c10_no_owner_keeps_hash_eligible.2.2.2.1 lookupC10none "A9" [txC10] ["z"] rfl,
   c10_no_owner_keeps_hash_eligible.2.2.2.2.2.2.1 lookupC10own "A9" txC10 [] "u9"
     (by decide) rfl rfl (by decide),
   c10_no_owner_keeps_hash_eligible.1 lookupC10own "A9" [txC10] [] "T9" (by decide)⟩

